import Mathlib

/-!
# Verification of the Wiki-Rabbit-Hole link extractor and fetcher

Shallow embedding of `src/rabbit.py` (a Streamlit client for the Wikipedia
REST API).  Pure string processing is translated directly; HTTP calls and
`random.shuffle` are modelled as explicit parameters (the outcome of each
call, and an arbitrary permutation function, respectively).  Python `str`
operations are modelled on `List Char`; Python `.lower()` is modelled as
ASCII lowercasing and `urllib.parse.unquote` as bytewise percent-decoding
(accurate on ASCII data, which is all the claims exercise).
-/

/-- Fixed REST origin, `WIKI_REST` in the source. -/
def WIKI_REST : String := "https://en.wikipedia.org/api/rest_v1"

/-- Fixed site origin, `WIKI_BASE` in the source. -/
def WIKI_BASE : String := "https://en.wikipedia.org"

/-! ## Character/string helpers (models of the Python `str` methods used) -/

/-- Model of Python `.lower()` on one character (ASCII range). -/
def lowerChar (c : Char) : Char := Char.toLower c

/-- Model of Python `s.lower()`. -/
def lowerL (l : List Char) : List Char := l.map lowerChar

/-- Model of Python `s.replace("_", " ")`. -/
def replaceUSL (l : List Char) : List Char :=
  l.map fun c => if c = '_' then ' ' else c

/-- Model of Python `s.strip()`: drop leading and trailing whitespace. -/
def stripL (l : List Char) : List Char :=
  ((l.dropWhile Char.isWhitespace).reverse.dropWhile Char.isWhitespace).reverse

/-- Model of Python `sub in s` (substring containment). -/
def containsSub (sub : List Char) : List Char → Bool
  | [] => decide (sub = [])
  | c :: rest => sub.isPrefixOf (c :: rest) || containsSub sub rest

/-- Model of Python `s.split(sep, 1)[0]` for a one-character separator:
the characters before the first occurrence of `sep`. -/
def takeUntil (sep : Char) (l : List Char) : List Char :=
  l.takeWhile fun c => c ≠ sep

/-- Model of Python `s.isdigit()` (ASCII digits). -/
def isdigitL (l : List Char) : Bool :=
  !l.isEmpty && l.all Char.isDigit

/-- Value of an ASCII hex digit, used by the `unquote` model. -/
def hexVal (c : Char) : Option Nat :=
  if '0' ≤ c ∧ c ≤ '9' then some (c.toNat - 48)
  else if 'a' ≤ c ∧ c ≤ 'f' then some (c.toNat - 87)
  else if 'A' ≤ c ∧ c ≤ 'F' then some (c.toNat - 55)
  else none

/-- Worker for the `unquote` model; the fuel argument (instantiated with
the input length, enough for the scan, which consumes at least one
character per step) makes the recursion structural. -/
def unquoteAux : Nat → List Char → List Char
  | 0, l => l
  | _, [] => []
  | fuel + 1, '%' :: a :: b :: rest =>
    match hexVal a, hexVal b with
    | some x, some y => Char.ofNat (16 * x + y) :: unquoteAux fuel rest
    | _, _ => '%' :: unquoteAux fuel (a :: b :: rest)
  | fuel + 1, c :: rest => c :: unquoteAux fuel rest

/-- Model of `urllib.parse.unquote`: each `%XX` hex escape becomes the
character with that byte value, malformed escapes are kept literally and
scanning resumes right after the `%`.  (Bytewise model: multi-byte UTF-8
escapes are not recombined; the claims only exercise ASCII data.) -/
def unquoteL (l : List Char) : List Char := unquoteAux l.length l

/-- Unreserved characters kept verbatim by `urllib.parse.quote` with the
default `safe='/'`. -/
def quoteKeep (c : Char) : Bool :=
  c.isAlphanum || c = '_' || c = '.' || c = '-' || c = '~' || c = '/'

/-- Upper-case hex digit of a value `< 16`. -/
def hexDigit (n : Nat) : Char :=
  if n < 10 then Char.ofNat (48 + n) else Char.ofNat (55 + n)

/-- UTF-8 bytes of one character, used by the `quote` model. -/
def utf8Bytes (c : Char) : List Nat :=
  let n := c.toNat
  if n < 128 then [n]
  else if n < 2048 then [192 + n / 64, 128 + n % 64]
  else if n < 65536 then [224 + n / 4096, 128 + (n / 64) % 64, 128 + n % 64]
  else [240 + n / 262144, 128 + (n / 4096) % 64, 128 + (n / 64) % 64, 128 + n % 64]

/-- Model of `urllib.parse.quote(s)` (default `safe='/'`): percent-encode
every byte of every character outside the unreserved set. -/
def quoteL : List Char → List Char
  | [] => []
  | c :: rest =>
    (if quoteKeep c then [c]
     else ((utf8Bytes c).map fun b => ['%', hexDigit (b / 16), hexDigit (b % 16)]).flatten)
    ++ quoteL rest

/-- String-level wrapper for `quoteL`, `quote(title)` in the source. -/
def quoteS (s : String) : String := String.mk (quoteL s.data)

/-! ## Link extractor (`get_internal_links`, src/rabbit.py lines 78-136) -/

/-- One anchor element as seen by the extraction loop: its `href`
attribute, its class list (`a.get("class") or []`) and its visible text
(`a.get_text(" ", strip=True)`).  BeautifulSoup parsing itself is outside
the embedding; the anchor list is the input. -/
structure Anchor where
  href : String
  classes : List String
  text : String

/-- Normalization used for the self-link test, source line 105:
`decoded.replace("_", " ").lower()`. -/
def selfNormS (s : String) : String := String.mk (lowerL (replaceUSL s.data))

/-- Normalization used as the dedup key, source line 114:
`decoded.lower().replace("_", " ")`. -/
def keyNormS (s : String) : String := String.mk (replaceUSL (lowerL s.data))

/-- Label stoplist of source line 110. -/
def labelStoplist : List String := ["edit", "citation needed", "help", "see also"]

/-- The per-anchor filter of the extraction loop (source lines 84-113):
returns the `(decoded, nice)` pair for an anchor that survives every
`continue`, and `none` for an anchor that is skipped. -/
def processAnchor (title : String) (a : Anchor) : Option (String × String) :=
  let href := String.mk (stripL a.href.data)
  let label := a.text
  if label = "" ∨ label.length < 2 then none
  else if containsSub "redlink=1".data href.data then none
  else
    match (if "/wiki/".data.isPrefixOf href.data then some (String.mk (href.data.drop 6))
           else if "./".data.isPrefixOf href.data then some (String.mk (href.data.drop 2))
           else none) with
    | none => none
    | some tail0 =>
      let tail := String.mk (takeUntil '?' (takeUntil '#' tail0.data))
      if tail = "" then none
      else if tail.data.contains ':' then none
      else if tail = "Main_Page" then none
      else
        let decoded := String.mk (unquoteL tail.data)
        if selfNormS decoded = selfNormS title then none
        else if "new" ∈ a.classes then none
        else
          let nice := String.mk (stripL (replaceUSL label.data))
          if String.mk (lowerL nice.data) ∈ labelStoplist then none
          else if isdigitL nice.data then none
          else some (decoded, nice)

/-- The extraction loop (source lines 82-119): walk the anchors carrying
the `seen` key set and the accumulated `pairs`, deduplicating by the
normalized key (first occurrence wins) and breaking once `pairs` has
reached `max_links * 3` entries. -/
def extractLoop (title : String) (maxLinks : Nat) :
    List Anchor → List String → List (String × String) → List (String × String)
  | [], _, pairs => pairs
  | a :: rest, seen, pairs =>
    match processAnchor title a with
    | none => extractLoop title maxLinks rest seen pairs
    | some (decoded, nice) =>
      if keyNormS decoded ∈ seen then
        if maxLinks * 3 ≤ pairs.length then pairs
        else extractLoop title maxLinks rest seen pairs
      else
        if maxLinks * 3 ≤ (pairs ++ [(decoded, nice)]).length then pairs ++ [(decoded, nice)]
        else extractLoop title maxLinks rest (keyNormS decoded :: seen) (pairs ++ [(decoded, nice)])

/-- The HTML extraction path of `get_internal_links` (source lines 79-122):
run the loop on the parsed anchors, shuffle, and return the first
`maxLinks` pairs if any survived; `none` means control falls through to
the fallback.  `shuffleP` stands for `random.shuffle`. -/
def htmlLinks (shuffleP : List (String × String) → List (String × String))
    (title : String) (maxLinks : Nat) (anchors : List Anchor) :
    Option (List (String × String)) :=
  let pairs := shuffleP (extractLoop title maxLinks anchors [] [])
  if pairs = [] then none else some (pairs.take maxLinks)

/-- One entry of the `parse.links` fallback listing: the `*` member
(target title), the `ns` member, and whether the `exists` member is
present. -/
structure PLink where
  star : Option String
  ns : Option Int
  hasExists : Bool

/-- Filter of source line 131: keep `l["*"]` when `l.get("ns") == 0`,
`l.get("*")` is truthy, and `"exists" in l`. -/
def plinkTitle (l : PLink) : Option String :=
  if l.ns = some 0 then
    match l.star with
    | some s => if s ≠ "" then (if l.hasExists then some s else none) else none
    | none => none
  else none

/-- Exact-equality first-occurrence dedup, `list(dict.fromkeys(titles))`
of source line 132. -/
def dedupFirst (seen : List String) : List String → List String
  | [] => []
  | t :: rest =>
    if t ∈ seen then dedupFirst seen rest
    else t :: dedupFirst (t :: seen) rest

/-- The fallback path of `get_internal_links` (source lines 125-136):
`none` models an exception (fetch or JSON failure), which yields the empty
list; otherwise filter to existing mainspace links, dedup, shuffle, take
`maxLinks`, and label each title with underscores replaced by spaces. -/
def fallbackLinks (shuffleT : List String → List String) (maxLinks : Nat) :
    Option (List PLink) → List (String × String)
  | none => []
  | some links =>
    ((shuffleT (dedupFirst [] (links.filterMap plinkTitle))).take maxLinks).map
      fun t => (t, String.mk (replaceUSL t.data))

/-- `get_internal_links(title, max_links)` as a function of the outcomes
of its two HTTP calls: `htmlFetch = none` models an exception while
fetching or parsing the article HTML, and `fallbackFetch = none` an
exception on the fallback listing. -/
def get_internal_links (shuffleP : List (String × String) → List (String × String))
    (shuffleT : List String → List String) (title : String) (maxLinks : Nat)
    (htmlFetch : Option (List Anchor)) (fallbackFetch : Option (List PLink)) :
    List (String × String) :=
  match htmlFetch with
  | some anchors =>
    match htmlLinks shuffleP title maxLinks anchors with
    | some out => out
    | none => fallbackLinks shuffleT maxLinks fallbackFetch
  | none => fallbackLinks shuffleT maxLinks fallbackFetch

/-! ## Resilient fetcher (`_get`, src/rabbit.py lines 18-39) -/

/-- The `Retry-After` header as the 429/503 branch sees it: absent (or
falsy), present but not parseable as a float, or parsed to a value. -/
inductive RetryAfter where
  | absent
  | unparseable
  | parsed (q : ℚ)

/-- Outcome of one `SESSION.get` call: a response with a status code and
`Retry-After` header, or a `requests.RequestException` raised at the
network level (connection error, timeout). -/
inductive Attempt where
  | resp (status : Nat) (ra : RetryAfter)
  | netErr

/-- Error eventually raised by `_get`: the synthesized
`HTTPError(f"{status} on {url}")` of the 429/503 branch, the
`raise_for_status` error of another 4xx/5xx response, a network-level
error, or the `RuntimeError("Unknown HTTP error")` fallback. -/
inductive GetErr where
  | httpRetryable (status : Nat)
  | httpStatus (status : Nat)
  | network
  | unknown
deriving DecidableEq

/-- Sleep performed in the 429/503 branch (source lines 24-31): the parsed
`Retry-After` value if the header is present and parseable, else
`1.5 * (i + 1)`. -/
def statusDelay (i : Nat) : RetryAfter → ℚ
  | .parsed q => q
  | .unparseable => 3 / 2 * ((i : ℚ) + 1)
  | .absent => 3 / 2 * ((i : ℚ) + 1)

/-- Sleep performed in the generic `except` branch (source line 38):
`0.5 * (i + 1)`. -/
def netDelay (i : Nat) : ℚ := 1 / 2 * ((i : ℚ) + 1)

/-- Result of a `_get` run: the returned attempt index or the raised
error, together with the sleeps performed and the number of HTTP requests
issued. -/
structure GetOutcome where
  result : Except GetErr Nat
  sleeps : List ℚ
  attemptsMade : Nat

/-- The retry loop of `_get`: `i` is the loop counter, `remaining` the
attempts left out of `tries`, `lastErr` the `last_err` variable.  A
429/503 response sleeps `statusDelay` and records the synthesized
`HTTPError`; any other 4xx/5xx raises in `raise_for_status`, is caught by
the `except requests.RequestException` arm and sleeps `netDelay`, exactly
as a network-level failure does; any other status returns the response. -/
def getLoop (att : Nat → Attempt) : Nat → Nat → Option GetErr → GetOutcome
  | _, 0, lastErr => ⟨.error (lastErr.getD .unknown), [], 0⟩
  | i, remaining + 1, _ =>
    match att i with
    | .resp s ra =>
      if s = 429 ∨ s = 503 then
        let rest := getLoop att (i + 1) remaining (some (.httpRetryable s))
        ⟨rest.result, statusDelay i ra :: rest.sleeps, rest.attemptsMade + 1⟩
      else if 400 ≤ s ∧ s < 600 then
        let rest := getLoop att (i + 1) remaining (some (.httpStatus s))
        ⟨rest.result, netDelay i :: rest.sleeps, rest.attemptsMade + 1⟩
      else ⟨.ok i, [], 1⟩
    | .netErr =>
      let rest := getLoop att (i + 1) remaining (some .network)
      ⟨rest.result, netDelay i :: rest.sleeps, rest.attemptsMade + 1⟩

/-- `_get(url, tries, timeout)` as a function of the per-attempt outcomes;
the source's default budget is `tries = 3`. -/
def runGet (att : Nat → Attempt) (tries : Nat) : GetOutcome :=
  getLoop att 0 tries none

/-! ## Search fallback (`search_title_best` / `safe_get_summary`,
src/rabbit.py lines 49-76) -/

/-- `search_title_best(query)` as a function of its two HTTP call
outcomes: `openSearch` is the opensearch suggestion list `d[1]` (`.error`
models any exception in that block, and an empty list the falsy checks on
`d` and `d[1]`), `fullSearch` likewise the full-text `hits` titles.
Returns the best single candidate title or `none`; never raises. -/
def search_title_best (openSearch fullSearch : Except Unit (List String)) : Option String :=
  match openSearch with
  | .ok (t :: _) => some t
  | _ =>
    match fullSearch with
    | .ok (t :: _) => some t
    | _ => none

/-- `safe_get_summary(query_or_title)` as a function of the direct-lookup
outcome, the two search outcomes and the by-title lookup: on a direct
failure it re-raises the original error (`raise` with no argument) when
the search result is falsy (`none` or the empty string), else looks up
the searched title. -/
def safe_get_summary {α : Type} (direct : Except String α)
    (openSearch fullSearch : Except Unit (List String))
    (byTitle : String → Except String α) : Except String α :=
  match direct with
  | .ok v => .ok v
  | .error e =>
    match search_title_best openSearch fullSearch with
    | none => .error e
    | some best => if best = "" then .error e else byTitle best

/-! ## Summary JSON (`note_from_summary`, src/rabbit.py lines 138-142) -/

/-- JSON values, as far as `note_from_summary` can observe them. -/
inductive Json where
  | null
  | bool (b : Bool)
  | num (n : Int)
  | str (s : String)
  | arr (xs : List Json)
  | obj (fields : List (String × Json))

/-- Key lookup in a JSON object's field list (first match wins; Python
dicts cannot hold duplicate keys). -/
def jlookup : List (String × Json) → String → Option Json
  | [], _ => none
  | (k, v) :: rest, key => if k = key then some v else jlookup rest key

/-- Python `j.get(k, dflt)`: defined on dictionaries only; on any other
value the attribute access raises (`AttributeError`), modelled as
`.error ()`. -/
def pyGet (j : Json) (k : String) (dflt : Json) : Except Unit Json :=
  match j with
  | .obj fields => .ok ((jlookup fields k).getD dflt)
  | _ => .error ()

/-- `note_from_summary(js)`.  Mirrors the evaluation order of source lines
139-141: the `title` and `extract` gets, then the two nested gets on
`content_urls`, then the default argument `f"{WIKI_BASE}/wiki/{quote(title)}"`
(Python evaluates the default before calling the final `.get`, and
`quote` raises `TypeError` on a non-string), then the final `.get`. -/
def note_from_summary (js : Json) : Except Unit (Json × Json × Json) := do
  let title ← pyGet js "title" (.str "Untitled")
  let extract ← pyGet js "extract" (.str "(No summary available.)")
  let cu ← pyGet js "content_urls" (.obj [])
  let dt ← pyGet cu "desktop" (.obj [])
  let dflt ← match title with
    | .str s => Except.ok (Json.str (WIKI_BASE ++ "/wiki/" ++ quoteS s))
    | _ => Except.error ()
  let url ← pyGet dt "page" dflt
  return (title, extract, url)

/-! ## Session state and the navigation handlers (src/rabbit.py
lines 196-326) -/

/-- The `st.session_state` fields the handlers touch. -/
structure SessionState where
  stack : List String
  current : Option String
  current_data : Option (String × String × String)
  current_links : List (String × String)
deriving DecidableEq

/-- A navigation fetch outcome: the note triple produced by
`note_from_summary` on the fetched summary, plus the suggested links
(`get_internal_links` never raises).  `none` models an exception anywhere
in the handler's `try` block, which in the source always occurs before the
first state mutation. -/
def FetchOutcome := Option ((String × String × String) × List (String × String))

/-- The Random-start button handler (source lines 205-215) and the
identical startup block (lines 263-273). -/
def randomStart (st : SessionState) (outcome : FetchOutcome) : SessionState :=
  match outcome with
  | none => st
  | some ((t, ex, u), links) =>
    { stack := [t], current := some t, current_data := some (t, ex, u), current_links := links }

/-- Append then trim to the last 200 entries (source lines 247-249 and
311-313). -/
def pushTrim (stack : List String) (t : String) : List String :=
  let s := stack ++ [t]
  if 200 < s.length then s.drop (s.length - 200) else s

/-- The Jump button handler (source lines 241-253). -/
def jumpHandler (st : SessionState) (outcome : FetchOutcome) : SessionState :=
  match outcome with
  | none => st
  | some ((t, ex, u), links) =>
    { stack := pushTrim st.stack t, current := some t, current_data := some (t, ex, u),
      current_links := links }

/-- The pick-a-lead button handler (source lines 305-317); its state
mutation is identical to Jump's. -/
def leadHandler (st : SessionState) (outcome : FetchOutcome) : SessionState :=
  match outcome with
  | none => st
  | some ((t, ex, u), links) =>
    { stack := pushTrim st.stack t, current := some t, current_data := some (t, ex, u),
      current_links := links }

/-- The Back button handler (source lines 220-232): guarded by
`len(stack) > 1`, it re-fetches the summary of `stack[-2]`, pops the
last entry, and installs the *fetched* title as current. -/
def backHandler (st : SessionState)
    (fetch : String → FetchOutcome) : SessionState :=
  if 1 < st.stack.length then
    match fetch (st.stack.getD (st.stack.length - 2) "") with
    | none => st
    | some ((t, ex, u), links) =>
      { stack := st.stack.dropLast, current := some t, current_data := some (t, ex, u),
        current_links := links }
  else st

/-- The invariant of spec section 3: once navigation has started, the
history is non-empty and its last entry is the displayed title. -/
def navInv (st : SessionState) : Prop :=
  st.stack ≠ [] ∧ st.stack.getLast? = st.current

/-! ## Helper lemmas -/

/-- Any pair the anchor filter emits survived the self-link test of
source line 105. -/
theorem processAnchor_ne_self {title : String} {a : Anchor} {p : String × String}
    (h : processAnchor title a = some p) : selfNormS p.1 ≠ selfNormS title := by
  simp only [processAnchor] at h
  repeat' split at h
  all_goals try simp_all
  subst h
  simp_all

/-- Provenance of the extraction loop: every output pair was already
accumulated or was emitted by the anchor filter. -/
theorem extractLoop_mem {title : String} {maxLinks : Nat} :
    ∀ {anchors : List Anchor} {seen : List String} {pairs : List (String × String)}
      {p : String × String}, p ∈ extractLoop title maxLinks anchors seen pairs →
      p ∈ pairs ∨ ∃ a, processAnchor title a = some p := by
  intro anchors
  induction anchors with
  | nil => intro seen pairs p h; exact Or.inl h
  | cons a rest ih =>
    intro seen pairs p h
    simp only [extractLoop] at h
    split at h
    · exact ih h
    · rename_i d n hpa
      split at h
      · split at h
        · exact Or.inl h
        · exact ih h
      · split at h
        · rcases List.mem_append.mp h with h1 | h1
          · exact Or.inl h1
          · simp only [List.mem_singleton] at h1
            exact Or.inr ⟨a, h1 ▸ hpa⟩
        · rcases ih h with h1 | h1
          · rcases List.mem_append.mp h1 with h2 | h2
            · exact Or.inl h2
            · simp only [List.mem_singleton] at h2
              exact Or.inr ⟨a, h2 ▸ hpa⟩
          · exact Or.inr h1

/-- The extraction loop keeps the dedup invariant of source lines
114-117: accumulated pairs have pairwise distinct normalized keys, all of
them recorded in `seen`. -/
theorem extractLoop_pairwise {title : String} {maxLinks : Nat} :
    ∀ {anchors : List Anchor} {seen : List String} {pairs : List (String × String)},
      (∀ p ∈ pairs, keyNormS p.1 ∈ seen) →
      pairs.Pairwise (fun p q => keyNormS p.1 ≠ keyNormS q.1) →
      (extractLoop title maxLinks anchors seen pairs).Pairwise
        (fun p q => keyNormS p.1 ≠ keyNormS q.1) := by
  intro anchors
  induction anchors with
  | nil => intro seen pairs _ h2; exact h2
  | cons a rest ih =>
    intro seen pairs h1 h2
    simp only [extractLoop]
    split
    · exact ih h1 h2
    · rename_i d n hpa
      split
      · split
        · exact h2
        · exact ih h1 h2
      · rename_i hkey
        have hpw : (pairs ++ [(d, n)]).Pairwise (fun p q => keyNormS p.1 ≠ keyNormS q.1) := by
          rw [List.pairwise_append]
          refine ⟨h2, by simp, ?_⟩
          intro p hp q hq
          simp only [List.mem_singleton] at hq
          subst hq
          intro hc
          exact hkey (hc ▸ h1 p hp)
        split
        · exact hpw
        · refine ih ?_ hpw
          intro p hp
          rcases List.mem_append.mp hp with h3 | h3
          · exact List.mem_cons_of_mem _ (h1 p h3)
          · simp only [List.mem_singleton] at h3
            subst h3
            exact List.mem_cons_self _ _

/-- Inversion of the HTML path: a returned list is the first `maxLinks`
entries of the shuffled loop output. -/
theorem htmlLinks_eq_some {shuffleP : List (String × String) → List (String × String)}
    {title : String} {maxLinks : Nat} {anchors : List Anchor} {out : List (String × String)}
    (h : htmlLinks shuffleP title maxLinks anchors = some out) :
    out = (shuffleP (extractLoop title maxLinks anchors [] [])).take maxLinks := by
  simp only [htmlLinks] at h
  split at h
  · cases h
  · exact (Option.some.inj h).symm

/-- Elements of the exact dedup are elements of the input that were not
already seen. -/
theorem dedupFirst_mem : ∀ {l : List String} {seen : List String} {x : String},
    x ∈ dedupFirst seen l → x ∈ l ∧ x ∉ seen := by
  intro l
  induction l with
  | nil => intro seen x h; simp [dedupFirst] at h
  | cons t rest ih =>
    intro seen x h
    simp only [dedupFirst] at h
    split at h
    · have := ih h
      exact ⟨List.mem_cons_of_mem _ this.1, this.2⟩
    · rename_i hts
      rcases List.mem_cons.mp h with h1 | h1
      · exact ⟨h1 ▸ List.mem_cons_self _ _, h1 ▸ hts⟩
      · have := ih h1
        exact ⟨List.mem_cons_of_mem _ this.1, fun hc => this.2 (List.mem_cons_of_mem _ hc)⟩

/-- The exact dedup of source line 132 has pairwise distinct entries. -/
theorem dedupFirst_pairwise : ∀ {l : List String} {seen : List String},
    (dedupFirst seen l).Pairwise (fun a b => a ≠ b) := by
  intro l
  induction l with
  | nil => intro seen; simp [dedupFirst]
  | cons t rest ih =>
    intro seen
    simp only [dedupFirst]
    split
    · exact ih
    · refine List.pairwise_cons.mpr ⟨?_, ih⟩
      intro b hb hc
      exact (dedupFirst_mem hb).2 (hc ▸ List.mem_cons_self _ _)

/-- Inversion of the fallback filter of source line 131. -/
theorem plinkTitle_eq_some {l : PLink} {s : String} (h : plinkTitle l = some s) :
    l.star = some s ∧ l.ns = some 0 ∧ l.hasExists ∧ s ≠ "" := by
  simp only [plinkTitle] at h
  repeat' split at h
  all_goals simp_all

/-- The fallback path never returns more than `maxLinks` pairs. -/
theorem fallbackLinks_length_le {shuffleT : List String → List String} {maxLinks : Nat}
    {ofb : Option (List PLink)} : (fallbackLinks shuffleT maxLinks ofb).length ≤ maxLinks := by
  cases ofb with
  | none => simp [fallbackLinks]
  | some links =>
    simp only [fallbackLinks, List.length_map, List.length_take]
    omega

/-- Dropping a strict prefix does not change the last element. -/
theorem getLast?_drop_of_lt {α : Type} {l : List α} {k : Nat} (h : k < l.length) :
    (l.drop k).getLast? = l.getLast? := by
  rw [List.getLast?_eq_getElem?, List.getLast?_eq_getElem?, List.getElem?_drop, List.length_drop]
  congr 1
  omega

/-- Appending then trimming to the newest 200 entries keeps the appended
entry last, and keeps the stack non-empty. -/
theorem pushTrim_getLast {stack : List String} {t : String} :
    (pushTrim stack t).getLast? = some t ∧ pushTrim stack t ≠ [] := by
  simp only [pushTrim]
  split
  · rename_i hlen
    constructor
    · rw [getLast?_drop_of_lt (by omega)]
      exact List.getLast?_concat _
    · have hl : ((stack ++ [t]).drop ((stack ++ [t]).length - 200)).length = 200 := by
        rw [List.length_drop]; omega
      intro hnil
      rw [hnil] at hl
      simp at hl
  · exact ⟨List.getLast?_concat _, by simp⟩

/-- The last element after dropping the last entry of a list with at
least two elements is the second-to-last element. -/
theorem dropLast_getLast? {α : Type} {l : List α} (h : 1 < l.length) :
    l.dropLast.getLast? = l[l.length - 2]? := by
  simp only [List.dropLast_eq_take, List.getLast?_eq_getElem?, List.length_take,
    List.getElem?_take]
  rw [if_pos (by omega)]
  congr 1
  omega

/-! ## Claims C1-C4: the link extractor -/

/-- C1 (amended).  For every input, `get_internal_links` returns at most
`maxLinks` entries on every path, and every entry produced by the HTML
extraction path has a normalized target (case- and underscore-insensitive)
different from the normalized self title.  (The fallback path does not
filter self-links; see the counterexample.) -/
theorem get_internal_links_bounded_html_no_self
    (shuffleP : List (String × String) → List (String × String))
    (shuffleT : List String → List String)
    (hP : ∀ l, (shuffleP l).Perm l)
    (title : String) (maxLinks : Nat)
    (htmlFetch : Option (List Anchor)) (fallbackFetch : Option (List PLink)) :
    (get_internal_links shuffleP shuffleT title maxLinks htmlFetch fallbackFetch).length ≤
      maxLinks ∧
    ∀ anchors out, htmlLinks shuffleP title maxLinks anchors = some out →
      out.length ≤ maxLinks ∧ ∀ p ∈ out, selfNormS p.1 ≠ selfNormS title := by
  have hhtml : ∀ anchors out, htmlLinks shuffleP title maxLinks anchors = some out →
      out.length ≤ maxLinks ∧ ∀ p ∈ out, selfNormS p.1 ≠ selfNormS title := by
    intro anchors out h
    have hout := htmlLinks_eq_some h
    constructor
    · rw [hout, List.length_take]
      omega
    · intro p hp
      rw [hout] at hp
      have hp2 : p ∈ shuffleP (extractLoop title maxLinks anchors [] []) :=
        (List.take_sublist _ _).subset hp
      have hp3 : p ∈ extractLoop title maxLinks anchors [] [] :=
        (hP _).mem_iff.mp hp2
      rcases extractLoop_mem hp3 with h1 | ⟨a, ha⟩
      · simp at h1
      · exact processAnchor_ne_self ha
  refine ⟨?_, hhtml⟩
  cases htmlFetch with
  | none => exact fallbackLinks_length_le
  | some anchors =>
    cases h : htmlLinks shuffleP title maxLinks anchors with
    | none =>
      simp only [get_internal_links, h]
      exact fallbackLinks_length_le
    | some out =>
      simp only [get_internal_links, h]
      exact (hhtml anchors out h).1

/-- C1 counterexample.  With an article HTML containing no anchors the
HTML path yields nothing and the fallback runs; the fallback keeps a
mainspace link whose normalized target equals the normalized self title,
so `get_internal_links` (for the identity permutation as the shuffle)
returns the originating title — refuting the claim's self-exclusion for
the whole function. -/
theorem get_internal_links_self_in_fallback :
    get_internal_links (fun l => l) (fun l => l) "Cat" 5 (some [])
        (some [⟨some "Cat", some 0, true⟩]) = [("Cat", "Cat")] ∧
    ∃ p ∈ get_internal_links (fun l => l) (fun l => l) "Cat" 5 (some [])
        (some [⟨some "Cat", some 0, true⟩]), selfNormS p.1 = selfNormS "Cat" :=
  ⟨by decide, ⟨("Cat", "Cat"), by decide, rfl⟩⟩

/-- C1 witness: the identity shuffle is a permutation; on a six-anchor
page about "Cat" with one valid link the HTML path returns one pair,
within the bound and distinct from the self title. -/
theorem get_internal_links_bounded_html_no_self_witness :
    (∀ l : List (String × String), ((fun x => x) l).Perm l) ∧
    (get_internal_links (fun x => x) (fun x => x) "Cat" 5
        (some [⟨"/wiki/Dog", [], "Dog"⟩]) none).length ≤ 5 ∧
    ([("Dog", "Dog")].length ≤ 5 ∧
      ∀ p ∈ [("Dog", "Dog")], selfNormS p.1 ≠ selfNormS "Cat") :=
  ⟨fun l => List.Perm.refl l,
   (get_internal_links_bounded_html_no_self (fun x => x) (fun x => x)
      (fun l => List.Perm.refl l) "Cat" 5 (some [⟨"/wiki/Dog", [], "Dog"⟩]) none).1,
   (get_internal_links_bounded_html_no_self (fun x => x) (fun x => x)
      (fun l => List.Perm.refl l) "Cat" 5 (some [⟨"/wiki/Dog", [], "Dog"⟩]) none).2
     [⟨"/wiki/Dog", [], "Dog"⟩] [("Dog", "Dog")] (by decide)⟩

/-- C2 (amended).  The HTML path output has pairwise distinct normalized
targets (lowercased, underscores to spaces; first occurrence wins); the
fallback path deduplicates by exact title only, so its output has pairwise
distinct exact targets (first occurrence wins) but may repeat a
normalized target. -/
theorem get_internal_links_dedup
    (shuffleP : List (String × String) → List (String × String))
    (shuffleT : List String → List String)
    (hP : ∀ l, (shuffleP l).Perm l) (hT : ∀ l, (shuffleT l).Perm l)
    (title : String) (maxLinks : Nat) :
    (∀ anchors out, htmlLinks shuffleP title maxLinks anchors = some out →
      out.Pairwise (fun p q => keyNormS p.1 ≠ keyNormS q.1)) ∧
    ∀ links, (fallbackLinks shuffleT maxLinks (some links)).Pairwise
      (fun p q => p.1 ≠ q.1) := by
  constructor
  · intro anchors out h
    have hout := htmlLinks_eq_some h
    have h1 : (extractLoop title maxLinks anchors [] []).Pairwise
        (fun p q => keyNormS p.1 ≠ keyNormS q.1) :=
      extractLoop_pairwise (by simp) (by simp)
    have h2 : (shuffleP (extractLoop title maxLinks anchors [] [])).Pairwise
        (fun p q => keyNormS p.1 ≠ keyNormS q.1) :=
      ((hP _).pairwise_iff fun hxy => fun heq => hxy heq.symm).mpr h1
    rw [hout]
    exact h2.sublist (List.take_sublist _ _)
  · intro links
    simp only [fallbackLinks]
    rw [List.pairwise_map]
    have h1 : (dedupFirst [] ((links.filterMap plinkTitle))).Pairwise
        (fun a b => a ≠ b) := dedupFirst_pairwise
    have h2 := ((hT _).pairwise_iff fun hxy => fun heq => hxy heq.symm).mpr h1
    exact h2.sublist (List.take_sublist _ _)

/-- C2 counterexample.  Two fallback-listing entries that differ only in
case both survive the fallback's exact dedup, so the returned sequence has
two entries with the same normalized target — refuting the claim for the
fallback path. -/
theorem get_internal_links_fallback_normalized_dup :
    get_internal_links (fun l => l) (fun l => l) "Dog" 5 none
        (some [⟨some "Cat", some 0, true⟩, ⟨some "cat", some 0, true⟩]) =
      [("Cat", "Cat"), ("cat", "cat")] ∧
    ¬ (get_internal_links (fun l => l) (fun l => l) "Dog" 5 none
        (some [⟨some "Cat", some 0, true⟩, ⟨some "cat", some 0, true⟩])).Pairwise
      (fun p q => keyNormS p.1 ≠ keyNormS q.1) :=
  ⟨by decide, by decide⟩

/-- C2 witness: with the identity permutations, a page with two anchors
whose targets normalize identically yields a single pair on the HTML path,
and a fallback listing with a repeated exact title is deduplicated. -/
theorem get_internal_links_dedup_witness :
    (∀ l : List (String × String), ((fun x => x) l).Perm l) ∧
    (∀ l : List String, ((fun x => x) l).Perm l) ∧
    [("Dog", "Dog")].Pairwise (fun p q : String × String => keyNormS p.1 ≠ keyNormS q.1) ∧
    (fallbackLinks (fun x => x) 5 (some [⟨some "A", some 0, true⟩, ⟨some "A", some 0, true⟩])).Pairwise
      (fun p q : String × String => p.1 ≠ q.1) :=
  ⟨fun l => List.Perm.refl l, fun l => List.Perm.refl l,
   (get_internal_links_dedup (fun x => x) (fun x => x)
      (fun l => List.Perm.refl l) (fun l => List.Perm.refl l) "Cat" 5).1
     [⟨"/wiki/Dog", [], "Dog"⟩, ⟨"/wiki/dog", [], "dog"⟩] [("Dog", "Dog")] (by decide),
   (get_internal_links_dedup (fun x => x) (fun x => x)
      (fun l => List.Perm.refl l) (fun l => List.Perm.refl l) "Cat" 5).2
     [⟨some "A", some 0, true⟩, ⟨some "A", some 0, true⟩]⟩

/-- C3 (confirmed).  On an article HTML about "Cat" with anchors
`/wiki/Cat`, `/wiki/File:Cat.jpg`, `/wiki/Main_Page`, `/wiki/Cat#History`,
a `redlink=1` anchor and a `class="new"` anchor, the HTML path excludes
every one of them: the self-link, the fragment-stripped self-link, the
namespace target, the home-page sentinel, and both broken-link markers. -/
theorem extractor_cat_scenario :
    processAnchor "Cat" ⟨"/wiki/Cat", [], "Cat"⟩ = none ∧
    processAnchor "Cat" ⟨"/wiki/File:Cat.jpg", [], "Cat picture"⟩ = none ∧
    processAnchor "Cat" ⟨"/wiki/Main_Page", [], "Main Page"⟩ = none ∧
    processAnchor "Cat" ⟨"/wiki/Cat#History", [], "History"⟩ = none ∧
    processAnchor "Cat" ⟨"/wiki/Dog?action=edit&redlink=1", [], "Dog"⟩ = none ∧
    processAnchor "Cat" ⟨"/wiki/Bird", ["new"], "Bird"⟩ = none ∧
    htmlLinks (fun l => l) "Cat" 5
      [⟨"/wiki/Cat", [], "Cat"⟩, ⟨"/wiki/File:Cat.jpg", [], "Cat picture"⟩,
       ⟨"/wiki/Main_Page", [], "Main Page"⟩, ⟨"/wiki/Cat#History", [], "History"⟩,
       ⟨"/wiki/Dog?action=edit&redlink=1", [], "Dog"⟩, ⟨"/wiki/Bird", ["new"], "Bird"⟩] =
      none := by
  decide

/-- C4 (confirmed).  When the HTML extraction raises (modelled as
`htmlFetch = none`) or yields zero qualifying candidates, the result is
the fallback path; the fallback keeps only non-empty mainspace (`ns = 0`)
titles confirmed to exist, deduplicates (first occurrence wins), shuffles,
truncates to `maxLinks`, labels by replacing underscores with spaces, and
returns the empty sequence when it fails itself. -/
theorem get_internal_links_fallback
    (shuffleP : List (String × String) → List (String × String))
    (shuffleT : List String → List String)
    (hT : ∀ l, (shuffleT l).Perm l)
    (title : String) (maxLinks : Nat)
    (htmlFetch : Option (List Anchor)) (fallbackFetch : Option (List PLink))
    (hfail : htmlFetch = none ∨ ∃ anchors, htmlFetch = some anchors ∧
      htmlLinks shuffleP title maxLinks anchors = none) :
    get_internal_links shuffleP shuffleT title maxLinks htmlFetch fallbackFetch =
      fallbackLinks shuffleT maxLinks fallbackFetch ∧
    fallbackLinks shuffleT maxLinks none = [] ∧
    ∀ links, (fallbackLinks shuffleT maxLinks (some links)).length ≤ maxLinks ∧
      ∀ p ∈ fallbackLinks shuffleT maxLinks (some links),
        p.2 = String.mk (replaceUSL p.1.data) ∧
        ∃ l ∈ links, l.star = some p.1 ∧ l.ns = some 0 ∧ l.hasExists := by
  refine ⟨?_, rfl, ?_⟩
  · rcases hfail with h | ⟨anchors, h1, h2⟩
    · rw [h]
      rfl
    · subst h1
      simp only [get_internal_links, h2]
  · intro links
    refine ⟨fallbackLinks_length_le, ?_⟩
    intro p hp
    simp only [fallbackLinks, List.mem_map] at hp
    obtain ⟨t, ht1, ht2⟩ := hp
    have ht3 : t ∈ shuffleT (dedupFirst [] (links.filterMap plinkTitle)) :=
      (List.take_sublist _ _).subset ht1
    have ht4 : t ∈ dedupFirst [] (links.filterMap plinkTitle) := (hT _).mem_iff.mp ht3
    have ht5 : t ∈ links.filterMap plinkTitle := (dedupFirst_mem ht4).1
    obtain ⟨l, hl1, hl2⟩ := List.mem_filterMap.mp ht5
    have hinv := plinkTitle_eq_some hl2
    refine ⟨?_, l, hl1, ?_, hinv.2.1, hinv.2.2.1⟩
    · rw [← ht2]
    · rw [← ht2]
      exact hinv.1

/-- C4 witness: with the HTML fetch failing and a concrete fallback
listing, `get_internal_links` equals the fallback computation. -/
theorem get_internal_links_fallback_witness :
    (∀ l : List String, ((fun x => x) l).Perm l) ∧
    get_internal_links (fun x => x) (fun x => x) "X" 2 none
        (some [⟨some "A_b", some 0, true⟩, ⟨some "C", some 1, true⟩,
          ⟨some "A_b", some 0, true⟩, ⟨some "D", some 0, false⟩,
          ⟨some "E", some 0, true⟩]) =
      fallbackLinks (fun x => x) 2
        (some [⟨some "A_b", some 0, true⟩, ⟨some "C", some 1, true⟩,
          ⟨some "A_b", some 0, true⟩, ⟨some "D", some 0, false⟩,
          ⟨some "E", some 0, true⟩]) :=
  ⟨fun l => List.Perm.refl l,
   (get_internal_links_fallback (fun x => x) (fun x => x) (fun l => List.Perm.refl l)
      "X" 2 none (some [⟨some "A_b", some 0, true⟩, ⟨some "C", some 1, true⟩,
        ⟨some "A_b", some 0, true⟩, ⟨some "D", some 0, false⟩,
        ⟨some "E", some 0, true⟩]) (Or.inl rfl)).1⟩

/-! ## Claims C5-C7: the resilient fetcher and the summary fallback -/

/-- C5 (amended).  `_get` gives the Retry-After / `1.5*(i+1)` treatment
exactly to statuses 429 and 503; any other 4xx/5xx status raises in
`raise_for_status` and is retried through the generic exception arm with
the `0.5*(i+1)` backoff; after the budget of 3 attempts the last error
encountered is raised. -/
theorem runGet_retry_schedule (att : Nat → Attempt) (s : Nat → Nat) (ra : Nat → RetryAfter)
    (hatt : ∀ i, i < 3 → att i = .resp (s i) (ra i)) :
    ((∀ i, i < 3 → s i = 429 ∨ s i = 503) →
      (runGet att 3).attemptsMade = 3 ∧
      (runGet att 3).sleeps = [statusDelay 0 (ra 0), statusDelay 1 (ra 1), statusDelay 2 (ra 2)] ∧
      (runGet att 3).result = .error (.httpRetryable (s 2))) ∧
    ((∀ i, i < 3 → (400 ≤ s i ∧ s i < 600) ∧ ¬(s i = 429 ∨ s i = 503)) →
      (runGet att 3).attemptsMade = 3 ∧
      (runGet att 3).sleeps = [netDelay 0, netDelay 1, netDelay 2] ∧
      (runGet att 3).result = .error (.httpStatus (s 2))) ∧
    (∀ i q, ra i = .parsed q → statusDelay i (ra i) = q) ∧
    (∀ i, ra i = .absent ∨ ra i = .unparseable →
      statusDelay i (ra i) = 3 / 2 * ((i : ℚ) + 1)) := by
  have e0 := hatt 0 (by omega)
  have e1 := hatt 1 (by omega)
  have e2 := hatt 2 (by omega)
  refine ⟨?_, ?_, ?_, ?_⟩
  · intro hs
    simp [runGet, getLoop, e0, e1, e2, if_pos (hs 0 (by omega)),
      if_pos (hs 1 (by omega)), if_pos (hs 2 (by omega))]
  · intro hs
    simp [runGet, getLoop, e0, e1, e2, if_neg (hs 0 (by omega)).2,
      if_neg (hs 1 (by omega)).2, if_neg (hs 2 (by omega)).2,
      if_pos (hs 0 (by omega)).1, if_pos (hs 1 (by omega)).1, if_pos (hs 2 (by omega)).1]
  · intro i q h
    rw [h]
    rfl
  · intro i h
    rcases h with h | h
    · rw [h]
      rfl
    · rw [h]
      rfl

/-- C5 counterexample.  A stream of 404 responses is retried too: all
3 attempts are made with the shorter backoff before the `raise_for_status`
error surfaces — refuting "retries exactly on status codes 429 and 503"
(a 404 would otherwise end the loop after one attempt). -/
theorem runGet_retries_on_404 :
    (runGet (fun _ => .resp 404 .absent) 3).attemptsMade = 3 ∧
    (runGet (fun _ => .resp 404 .absent) 3).sleeps = [netDelay 0, netDelay 1, netDelay 2] ∧
    (runGet (fun _ => .resp 404 .absent) 3).result = .error (.httpStatus 404) := by
  refine ⟨?_, ?_, ?_⟩ <;> simp [runGet, getLoop]

/-- C5 witness: a constant-429 stream without Retry-After exhausts the
budget with the linear status backoff and surfaces the synthesized
429 error. -/
theorem runGet_retry_schedule_witness :
    (∀ i, i < 3 → (fun _ => Attempt.resp 429 .absent) i = .resp 429 .absent) ∧
    (runGet (fun _ => .resp 429 .absent) 3).attemptsMade = 3 ∧
    (runGet (fun _ => .resp 429 .absent) 3).sleeps =
      [statusDelay 0 .absent, statusDelay 1 .absent, statusDelay 2 .absent] ∧
    (runGet (fun _ => .resp 429 .absent) 3).result = .error (.httpRetryable 429) :=
  ⟨fun _ _ => rfl,
   (runGet_retry_schedule (fun _ => .resp 429 .absent) (fun _ => 429) (fun _ => .absent)
      (fun _ _ => rfl)).1 (fun _ _ => Or.inl rfl)⟩

/-- C6 (amended).  On network-level failures the fetcher retries after the
`0.5*(i+1)` backoff: shorter than the status backoff at every attempt, but
linear in the attempt number, not a fixed constant. -/
theorem runGet_net_backoff (att : Nat → Attempt) (h : ∀ i, i < 3 → att i = .netErr) :
    (runGet att 3).attemptsMade = 3 ∧
    (runGet att 3).sleeps = [netDelay 0, netDelay 1, netDelay 2] ∧
    (runGet att 3).result = .error .network ∧
    (∀ i, netDelay i = 1 / 2 * ((i : ℚ) + 1)) ∧
    (∀ i, netDelay i < statusDelay i .absent) := by
  have e0 := h 0 (by omega)
  have e1 := h 1 (by omega)
  have e2 := h 2 (by omega)
  refine ⟨?_, ?_, ?_, fun i => rfl, ?_⟩
  · simp [runGet, getLoop, e0, e1, e2]
  · simp [runGet, getLoop, e0, e1, e2]
  · simp [runGet, getLoop, e0, e1, e2]
  · intro i
    have hpos : (0 : ℚ) < (i : ℚ) + 1 := by positivity
    simp only [netDelay, statusDelay]
    nlinarith

/-- C6 counterexample.  In a run with three network failures the sleep
before the second retry differs from the sleep before the first — the
backoff is not a fixed constant. -/
theorem runGet_net_backoff_not_constant :
    (runGet (fun _ => .netErr) 3).sleeps = [netDelay 0, netDelay 1, netDelay 2] ∧
    netDelay 0 ≠ netDelay 1 := by
  constructor
  · simp [runGet, getLoop]
  · simp only [netDelay]
    norm_num

/-- C6 witness: the constant network-failure stream realizes the amended
schedule. -/
theorem runGet_net_backoff_witness :
    (∀ i, i < 3 → (fun _ => Attempt.netErr) i = .netErr) ∧
    (runGet (fun _ => .netErr) 3).attemptsMade = 3 ∧
    (runGet (fun _ => .netErr) 3).result = .error .network :=
  ⟨fun _ _ => rfl,
   (runGet_net_backoff (fun _ => .netErr) (fun _ _ => rfl)).1,
   (runGet_net_backoff (fun _ => .netErr) (fun _ _ => rfl)).2.2.1⟩

/-- C7 (confirmed).  `safe_get_summary` returns the direct lookup when it
succeeds; when the direct lookup fails and the search yields no candidate
(including when both search endpoints themselves fail) it re-raises the
original direct-lookup error; and it succeeds whenever the direct lookup
failed but the searched best title's lookup succeeds. -/
theorem safe_get_summary_fallback {α : Type} (direct : Except String α)
    (os fs : Except Unit (List String)) (byTitle : String → Except String α) :
    (∀ v, direct = .ok v → safe_get_summary direct os fs byTitle = .ok v) ∧
    (∀ e, direct = .error e → search_title_best os fs = none →
      safe_get_summary direct os fs byTitle = .error e) ∧
    (∀ e b v, direct = .error e → search_title_best os fs = some b → b ≠ "" →
      byTitle b = .ok v → safe_get_summary direct os fs byTitle = .ok v) ∧
    (∀ eo ef, os = .error eo → fs = .error ef → search_title_best os fs = none) := by
  refine ⟨?_, ?_, ?_, ?_⟩
  · intro v h
    rw [h]
    rfl
  · intro e h hs
    simp only [safe_get_summary, h, hs]
  · intro e b v h hs hb hby
    simp only [safe_get_summary, h, hs, if_neg hb, hby]
  · intro eo ef ho hf
    simp only [search_title_best, ho, hf]

/-- C7 witness: with a failing direct lookup, a failing opensearch call
and an empty full-text result, the original error is re-raised. -/
theorem safe_get_summary_fallback_witness :
    search_title_best (Except.error ()) (Except.ok ([] : List String)) = none ∧
    safe_get_summary (Except.error "direct 404" : Except String Nat)
        (Except.error ()) (Except.ok ([] : List String))
        (fun _ => Except.error "search path") = Except.error "direct 404" :=
  ⟨rfl,
   (safe_get_summary_fallback (Except.error "direct 404" : Except String Nat)
      (Except.error ()) (Except.ok ([] : List String))
      (fun _ => Except.error "search path")).2.1 "direct 404" rfl rfl⟩

/-! ## Claims C8-C10: navigation state and the note builder -/

/-- C8 (amended).  After a successful Random start, Jump or
follow-a-lead, the history is non-empty and its last entry is the
displayed title.  After a successful Back this holds provided the summary
re-fetched for the stored previous entry reports that same title: the
handler installs the *fetched* title as current while the stack keeps the
stored entry (see the counterexample for the mismatch case). -/
theorem nav_invariant :
    (∀ st t ex u links, navInv (randomStart st (some ((t, ex, u), links)))) ∧
    (∀ st t ex u links, navInv (jumpHandler st (some ((t, ex, u), links)))) ∧
    (∀ st t ex u links, navInv (leadHandler st (some ((t, ex, u), links)))) ∧
    (∀ st fetch t ex u links, 1 < st.stack.length →
      fetch (st.stack.getD (st.stack.length - 2) "") = some ((t, ex, u), links) →
      t = st.stack.getD (st.stack.length - 2) "" →
      navInv (backHandler st fetch)) := by
  refine ⟨?_, ?_, ?_, ?_⟩
  · intro st t ex u links
    exact ⟨by simp [randomStart], by simp [randomStart]⟩
  · intro st t ex u links
    exact ⟨pushTrim_getLast.2, pushTrim_getLast.1⟩
  · intro st t ex u links
    exact ⟨pushTrim_getLast.2, pushTrim_getLast.1⟩
  · intro st fetch t ex u links hlen hfetch ht
    simp only [backHandler, if_pos hlen, hfetch, navInv]
    constructor
    · have hdl : st.stack.dropLast.length = st.stack.length - 1 := List.length_dropLast _
      intro hnil
      rw [hnil] at hdl
      simp at hdl
      omega
    · rw [dropLast_getLast? hlen, ht,
        List.getD_eq_getElem st.stack "" (by omega : st.stack.length - 2 < st.stack.length),
        List.getElem?_eq_getElem]

/-- C8 counterexample.  From history `["A", "B"]`, Back re-fetches "A" but
the response carries the title "C"; the handler sets current to "C" while
the history ends in "A" — the last history entry no longer equals the
displayed title. -/
theorem nav_invariant_back_mismatch :
    (backHandler ⟨["A", "B"], some "B", some ("B", "e", "u"), []⟩
        (fun _ => some (("C", "e", "u"), []))).stack.getLast? ≠
      (backHandler ⟨["A", "B"], some "B", some ("B", "e", "u"), []⟩
        (fun _ => some (("C", "e", "u"), []))).current := by
  decide

/-- C8 witness: the invariant holds at concrete states for all four
actions, with the Back fetch returning the stored previous title. -/
theorem nav_invariant_witness :
    navInv (randomStart ⟨[], none, none, []⟩ (some (("T", "e", "u"), []))) ∧
    navInv (jumpHandler ⟨["A"], some "A", none, []⟩ (some (("T", "e", "u"), []))) ∧
    navInv (leadHandler ⟨["A"], some "A", none, []⟩ (some (("T", "e", "u"), []))) ∧
    (1 < (["A", "B"] : List String).length ∧
      navInv (backHandler ⟨["A", "B"], some "B", none, []⟩
        (fun _ => some (("A", "e", "u"), [])))) :=
  ⟨nav_invariant.1 _ "T" "e" "u" [],
   nav_invariant.2.1 _ "T" "e" "u" [],
   nav_invariant.2.2.1 _ "T" "e" "u" [],
   by decide,
   nav_invariant.2.2.2 ⟨["A", "B"], some "B", none, []⟩ (fun _ => some (("A", "e", "u"), []))
     "A" "e" "u" [] (by decide) rfl rfl⟩

/-- C9 (confirmed).  When the fetch of a navigation action fails (the
`try` block raises before any mutation), the session state — current
title, navigation stack, note data and suggested links — is exactly what
it was before the action. -/
theorem failed_fetch_leaves_state (st : SessionState) (fetch : String → FetchOutcome) :
    randomStart st none = st ∧
    jumpHandler st none = st ∧
    leadHandler st none = st ∧
    ((∀ q, fetch q = none) → backHandler st fetch = st) := by
  refine ⟨rfl, rfl, rfl, fun hf => ?_⟩
  simp only [backHandler, hf]
  split
  · rfl
  · rfl

/-- C9 witness: concrete failing actions leave concrete states intact. -/
theorem failed_fetch_leaves_state_witness :
    randomStart ⟨["A"], some "A", none, []⟩ none = ⟨["A"], some "A", none, []⟩ ∧
    backHandler ⟨["A", "B"], some "B", none, []⟩ (fun _ => none) =
      ⟨["A", "B"], some "B", none, []⟩ :=
  ⟨(failed_fetch_leaves_state ⟨["A"], some "A", none, []⟩ (fun _ => none)).1,
   (failed_fetch_leaves_state ⟨["A", "B"], some "B", none, []⟩ (fun _ => none)).2.2.2
     (fun _ => rfl)⟩

/-- C10 (amended).  `note_from_summary` is total on any JSON dictionary
whose `title` member (when present) is a string and whose `content_urls`
member (when present) is a dictionary whose `desktop` member (when
present) is a dictionary; absent fields get the defaults "Untitled",
"(No summary available.)" and a URL built from the base origin and the
percent-encoded title.  (On other dictionaries it raises; see the
counterexample.) -/
theorem note_from_summary_total (fs : List (String × Json))
    (htitle : ∀ j, jlookup fs "title" = some j → ∃ s, j = .str s)
    (hcu : ∀ j, jlookup fs "content_urls" = some j →
      ∃ g, j = .obj g ∧ ∀ j2, jlookup g "desktop" = some j2 → ∃ g2, j2 = .obj g2) :
    (∃ t e u, note_from_summary (.obj fs) = .ok (t, e, u)) ∧
    note_from_summary (.obj []) = .ok (.str "Untitled", .str "(No summary available.)",
      .str (WIKI_BASE ++ "/wiki/" ++ quoteS "Untitled")) ∧
    ∀ s, note_from_summary (.obj [("title", .str s)]) =
      .ok (.str s, .str "(No summary available.)",
        .str (WIKI_BASE ++ "/wiki/" ++ quoteS s)) := by
  refine ⟨?_, rfl, fun s => rfl⟩
  have htstr : ∃ s, (jlookup fs "title").getD (.str "Untitled") = Json.str s := by
    cases hT : jlookup fs "title" with
    | none => exact ⟨"Untitled", rfl⟩
    | some j =>
      obtain ⟨s, rfl⟩ := htitle j hT
      exact ⟨s, rfl⟩
  obtain ⟨ts, hts⟩ := htstr
  have hcuobj : ∃ g, (jlookup fs "content_urls").getD (.obj []) = Json.obj g ∧
      (∀ j2, jlookup g "desktop" = some j2 → ∃ g2, j2 = .obj g2) := by
    cases hC : jlookup fs "content_urls" with
    | none => exact ⟨[], rfl, fun j2 h2 => by cases h2⟩
    | some j =>
      obtain ⟨g, rfl, hg⟩ := hcu j hC
      exact ⟨g, rfl, hg⟩
  obtain ⟨g, hg, hgdt⟩ := hcuobj
  have hdtobj : ∃ g2, (jlookup g "desktop").getD (.obj []) = Json.obj g2 := by
    cases hD : jlookup g "desktop" with
    | none => exact ⟨[], rfl⟩
    | some j2 =>
      obtain ⟨g2, rfl⟩ := hgdt j2 hD
      exact ⟨g2, rfl⟩
  obtain ⟨g2, hg2⟩ := hdtobj
  refine ⟨Json.str ts, (jlookup fs "extract").getD (Json.str "(No summary available.)"),
    (jlookup g2 "page").getD (Json.str (WIKI_BASE ++ "/wiki/" ++ quoteS ts)), ?_⟩
  simp only [note_from_summary, pyGet, hts, hg, hg2, bind, Except.bind]
  rfl

/-- C10 counterexample.  On a JSON dictionary whose `content_urls` is not
a dictionary the chained `.get` raises (`AttributeError`), and on one
whose `title` is not a string the eagerly evaluated default argument
`quote(title)` raises (`TypeError`) — `note_from_summary` is not total on
arbitrary JSON dictionaries. -/
theorem note_from_summary_raises :
    note_from_summary (.obj [("content_urls", .num 0)]) = .error () ∧
    note_from_summary (.obj [("title", .num 5)]) = .error () :=
  ⟨rfl, rfl⟩

/-- C10 witness: a fully populated well-shaped summary dictionary yields a
note triple. -/
theorem note_from_summary_total_witness :
    ∃ t e u, note_from_summary (.obj [("title", .str "Cat"),
      ("content_urls", .obj [("desktop", .obj [("page", .str "u")])])]) = .ok (t, e, u) :=
  (note_from_summary_total [("title", .str "Cat"),
      ("content_urls", .obj [("desktop", .obj [("page", .str "u")])])]
    (fun j h => by
      simp [jlookup] at h
      exact ⟨"Cat", h.symm⟩)
    (fun j h => by
      simp [jlookup] at h
      refine ⟨[("desktop", Json.obj [("page", Json.str "u")])], h.symm, ?_⟩
      intro j2 h2
      simp [jlookup] at h2
      exact ⟨[("page", Json.str "u")], h2.symm⟩)).1
